import Mathlib

/-!
Verification of the condition-analysis-web report core.

This file gives a shallow embedding, in Lean 4, of the data model and the
operations of the repository `condition-analysis-web`:

* `read_data.py` — `read_condition_csv` / `read_condition_xlsx`;
* `gui.py` — `extract_condition_data` (merge of the prior and incoming
  series, error handling for the optional prior file);
* `condition_workbook.py` — `_prepare_yearly_frame` (the calendar grid),
  `_prepare_agg_frame` / `_write_yearly_agg_data` (the aggregate table),
  `_insert_monthly_trend_chart` (chart tiling), `_iter_yearly_data`
  (dynamic grouping by year / month).

Polars dataframes are embedded as Lean lists of typed records; polars
dates are calendar dates `(year, month, day)` ordered lexicographically
(for valid dates this is exactly the epoch-ordinal order polars uses).
The spreadsheet encoder (xlsxwriter / calamine) is treated as a
capability: a sheet faithfully holds the table written to it.
-/

namespace CondAnalysis

/-- A calendar date, as carried by the polars `pl.Date` column `日付`. -/
structure Date where
  year : Nat
  month : Nat
  day : Nat
deriving DecidableEq, Repr

/-- Strict date order: lexicographic on (year, month, day).  For valid
calendar dates this coincides with the day-ordinal order that polars
uses to compare and sort `pl.Date` values. -/
def Date.lt (a b : Date) : Prop :=
  a.year < b.year ∨
    (a.year = b.year ∧ (a.month < b.month ∨ (a.month = b.month ∧ a.day < b.day)))

/-- Non-strict date order (used by the sorted merge). -/
def Date.le (a b : Date) : Prop := Date.lt a b ∨ a = b

instance (a b : Date) : Decidable (Date.lt a b) := by
  unfold Date.lt; infer_instance

instance (a b : Date) : Decidable (Date.le a b) := by
  unfold Date.le; infer_instance

theorem Date.lt_irrefl (a : Date) : ¬ Date.lt a a := by
  unfold Date.lt; omega

theorem Date.lt_trans {a b c : Date} (h1 : Date.lt a b) (h2 : Date.lt b c) :
    Date.lt a c := by
  unfold Date.lt at *
  rcases a with ⟨ay, am, ad⟩; rcases b with ⟨by_, bm, bd⟩; rcases c with ⟨cy, cm, cd⟩
  simp only at *
  omega

theorem Date.lt_of_not_le {a b : Date} (h : ¬ Date.le a b) : Date.lt b a := by
  unfold Date.le Date.lt at *
  rcases a with ⟨ay, am, ad⟩; rcases b with ⟨by_, bm, bd⟩
  simp only [Date.mk.injEq] at *
  omega

theorem Date.lt_of_le_of_ne {a b : Date} (h1 : Date.le a b) (h2 : a ≠ b) :
    Date.lt a b := by
  rcases h1 with h | h
  · exact h
  · exact absurd h h2

theorem Date.ne_of_lt {a b : Date} (h : Date.lt a b) : a ≠ b := by
  intro he; subst he; exact Date.lt_irrefl a h

/-- Gregorian leap-year rule (as implemented by polars' date arithmetic). -/
def isLeapYear (y : Nat) : Bool :=
  (y % 4 == 0 && y % 100 != 0) || y % 400 == 0

/-- Days in a calendar month of a given year. -/
def daysInMonth (y m : Nat) : Nat :=
  if m = 2 then (if isLeapYear y then 29 else 28)
  else if m = 4 ∨ m = 6 ∨ m = 9 ∨ m = 11 then 30
  else 31

theorem daysInMonth_pos (y m : Nat) : 1 ≤ daysInMonth y m := by
  unfold daysInMonth
  split
  · split <;> omega
  · split <;> omega

/-- The days of month `m` of year `y`, in ascending order. -/
def monthDates (y m : Nat) : List Date :=
  (List.range (daysInMonth y m)).map (fun d => ⟨y, m, d + 1⟩)

/-- Embedding of `pl.date_range(pl.date(year,1,1), pl.date(year,12,31))`
(from `_prepare_yearly_frame`): every calendar day of `year` from Jan 1 to
Dec 31, in ascending order. -/
def yearDates (y : Nat) : List Date :=
  (List.range 12).flatMap (fun m => monthDates y (m + 1))

theorem length_monthDates (y m : Nat) : (monthDates y m).length = daysInMonth y m := by
  simp [monthDates]

theorem daysInMonth_feb (y : Nat) :
    daysInMonth y 2 = if isLeapYear y then 29 else 28 := by
  simp [daysInMonth]

theorem length_yearDates (y : Nat) :
    (yearDates y).length = if isLeapYear y then 366 else 365 := by
  have hr : List.range 12 = [0, 1, 2, 3, 4, 5, 6, 7, 8, 9, 10, 11] := by decide
  have h1 : daysInMonth y 1 = 31 := by norm_num [daysInMonth]
  have h3 : daysInMonth y 3 = 31 := by norm_num [daysInMonth]
  have h4 : daysInMonth y 4 = 30 := by norm_num [daysInMonth]
  have h5 : daysInMonth y 5 = 31 := by norm_num [daysInMonth]
  have h6 : daysInMonth y 6 = 30 := by norm_num [daysInMonth]
  have h7 : daysInMonth y 7 = 31 := by norm_num [daysInMonth]
  have h8 : daysInMonth y 8 = 31 := by norm_num [daysInMonth]
  have h9 : daysInMonth y 9 = 30 := by norm_num [daysInMonth]
  have h10 : daysInMonth y 10 = 31 := by norm_num [daysInMonth]
  have h11 : daysInMonth y 11 = 30 := by norm_num [daysInMonth]
  have h12 : daysInMonth y 12 = 31 := by norm_num [daysInMonth]
  simp only [yearDates, hr, List.flatMap_cons, List.flatMap_nil, List.length_append,
    List.length_nil, length_monthDates]
  norm_num [h1, daysInMonth_feb, h3, h4, h5, h6, h7, h8, h9, h10, h11, h12]
  split <;> norm_num

/-- If the blocks of a `flatMap` are pairwise related and internally
`Pairwise`, so is the flattened list. -/
theorem pairwise_flatMap_of_blocks {α β : Type} {R : β → β → Prop} {f : α → List β} :
    ∀ {l : List α}, l.Pairwise (fun a b => ∀ x ∈ f a, ∀ y ∈ f b, R x y) →
      (∀ a ∈ l, (f a).Pairwise R) → (l.flatMap f).Pairwise R := by
  intro l
  induction l with
  | nil => intro _ _; simp
  | cons a l ih =>
    intro h1 h2
    rw [List.flatMap_cons, List.pairwise_append]
    refine ⟨h2 a (by simp), ih h1.tail (fun b hb => h2 b (by simp [hb])), ?_⟩
    intro x hx yv hyv
    rw [List.mem_flatMap] at hyv
    obtain ⟨b, hb, hyb⟩ := hyv
    exact (List.pairwise_cons.mp h1).1 b hb x hx yv hyb

theorem pairwise_monthDates (y m : Nat) : (monthDates y m).Pairwise Date.lt := by
  unfold monthDates
  rw [List.pairwise_map]
  refine (List.pairwise_lt_range _).imp ?_
  intro a b hab
  exact Or.inr ⟨rfl, Or.inr ⟨rfl, Nat.succ_lt_succ hab⟩⟩

theorem pairwise_yearDates (y : Nat) : (yearDates y).Pairwise Date.lt := by
  unfold yearDates
  apply pairwise_flatMap_of_blocks
  · refine (List.pairwise_lt_range 12).imp ?_
    intro a b hab x hx yv hyv
    simp only [monthDates, List.mem_map, List.mem_range] at hx hyv
    obtain ⟨dx, _, hxe⟩ := hx
    obtain ⟨dy, _, hye⟩ := hyv
    subst hxe hye
    exact Or.inr ⟨rfl, Or.inl (Nat.succ_lt_succ hab)⟩
  · intro m _; exact pairwise_monthDates y (m + 1)

theorem mem_yearDates {y : Nat} {d : Date} :
    d ∈ yearDates y ↔
      d.year = y ∧ 1 ≤ d.month ∧ d.month ≤ 12 ∧ 1 ≤ d.day ∧
        d.day ≤ daysInMonth y d.month := by
  rcases d with ⟨dy, dm, dd⟩
  simp only [yearDates, List.mem_flatMap, List.mem_range, monthDates, List.mem_map,
    Date.mk.injEq]
  constructor
  · rintro ⟨m, hm, d2, hd2, e1, e2, e3⟩
    subst e1; subst e2; subst e3
    refine ⟨rfl, ?_, ?_, ?_, ?_⟩
    · show 1 ≤ m + 1; omega
    · show m + 1 ≤ 12; omega
    · show 1 ≤ d2 + 1; omega
    · show d2 + 1 ≤ daysInMonth y (m + 1); omega
  · rintro ⟨e1, h1, h2, h3, h4⟩
    replace e1 : y = dy := e1.symm
    subst e1
    have h1' : 1 ≤ dm := h1
    have h2' : dm ≤ 12 := h2
    have h3' : 1 ≤ dd := h3
    have h4' : dd ≤ daysInMonth y dm := h4
    refine ⟨dm - 1, by omega, dd - 1, ?_, rfl, by omega, by omega⟩
    rw [show dm - 1 + 1 = dm from by omega]
    omega

/-- Nodup of the year's dates (needed for the 1:1 join validation on the
left side). -/
theorem nodup_yearDates (y : Nat) : (yearDates y).Nodup :=
  (pairwise_yearDates y).imp fun h => Date.ne_of_lt h

/-- Days of year `y`'s months strictly before month `m`. -/
def daysBeforeMonth (y m : Nat) : Nat :=
  ((List.range (m - 1)).map (fun i => daysInMonth y (i + 1))).sum

/-- Proleptic-Gregorian day ordinal (Rata Die: day 1 = 0001-01-01, a
Monday).  This models the day-number arithmetic behind polars'
`pl.col("日付").dt.weekday()`. -/
def toRataDie (d : Date) : Nat :=
  365 * (d.year - 1) + (d.year - 1) / 4 + (d.year - 1) / 400 +
      daysBeforeMonth d.year d.month + d.day - (d.year - 1) / 100

/-- ISO weekday number of a date: Monday = 1 … Sunday = 7.  Embedding of
polars' `dt.weekday()`. -/
def isoWeekday (d : Date) : Nat :=
  (toRataDie d + 6) % 7 + 1

theorem isoWeekday_ge_one (d : Date) : 1 ≤ isoWeekday d := by
  unfold isoWeekday; omega

theorem isoWeekday_le_seven (d : Date) : isoWeekday d ≤ 7 := by
  unfold isoWeekday; omega

/-- The fixed 7-symbol weekday mapping
`dict(zip(range(1, 8), "月火水木金土日"))` of `_prepare_yearly_frame`
(`replace_strict`; the default branch is unreachable since ISO weekday
numbers lie in 1..7). -/
def jpWeekday (w : Nat) : String :=
  match w with
  | 1 => "月"
  | 2 => "火"
  | 3 => "水"
  | 4 => "木"
  | 5 => "金"
  | 6 => "土"
  | 7 => "日"
  | _ => ""

/-- The weekend marker mapping `{x: 5 if x in [6, 7] else 0 for x in
range(1, 8)}` of `_prepare_yearly_frame` (`replace`; weekday numbers not
in the mapping would pass through, but ISO weekdays always lie in 1..7). -/
def weekendMarker (w : Nat) : Nat :=
  if w = 6 ∨ w = 7 then 5 else 0

/-- One record of the condition series: a row of the three-column frame
`{日付: Date, 体調: Int8, コメント: String}` produced by
`read_condition_csv` / `read_condition_xlsx`. -/
structure ConditionRecord where
  date : Date
  condition : Option Int
  comment : Option String
deriving DecidableEq, Repr

/-- One row of the yearly calendar grid produced by
`_prepare_yearly_frame`: the date, the (possibly absent) condition and
comment, the weekday symbol `曜日` and the weekend marker `土日判定`. -/
structure GridRow where
  date : Date
  condition : Option Int
  comment : Option String
  weekdayName : String
  weekendFlag : Nat
deriving DecidableEq, Repr

/-- The row of the yearly grid for day `d`: the left-outer-join of the
year's date spine with the sub-series `s` on `日付` (at most one match),
plus the derived columns `曜日` and `土日判定`. -/
def yearlyRow (s : List ConditionRecord) (d : Date) : GridRow :=
  let m := s.find? (fun r => r.date == d)
  { date := d
    condition := m.bind (fun r => r.condition)
    comment := m.bind (fun r => r.comment)
    weekdayName := jpWeekday (isoWeekday d)
    weekendFlag := weekendMarker (isoWeekday d) }

/-- Embedding of `_prepare_yearly_frame(df, year)`: build the full date
spine Jan 1 .. Dec 31 of `year`, left-join `df` on `日付` with
`validate="1:1"` (modelled by returning `none` when the right-hand join
key is duplicated, as polars then raises a `ComputeError`), and add the
`曜日` / `土日判定` columns. -/
def prepare_yearly_frame (s : List ConditionRecord) (year : Nat) :
    Option (List GridRow) :=
  if (s.map (fun r => r.date)).Nodup then
    some ((yearDates year).map (yearlyRow s))
  else
    none

@[simp] theorem yearlyRow_date (s : List ConditionRecord) (d : Date) :
    (yearlyRow s d).date = d := rfl

@[simp] theorem yearlyRow_weekdayName (s : List ConditionRecord) (d : Date) :
    (yearlyRow s d).weekdayName = jpWeekday (isoWeekday d) := rfl

@[simp] theorem yearlyRow_weekendFlag (s : List ConditionRecord) (d : Date) :
    (yearlyRow s d).weekendFlag = weekendMarker (isoWeekday d) := rfl

theorem yearlyRow_condition (s : List ConditionRecord) (d : Date) :
    (yearlyRow s d).condition =
      (s.find? (fun r => r.date == d)).bind (fun r => r.condition) := rfl

theorem yearlyRow_comment (s : List ConditionRecord) (d : Date) :
    (yearlyRow s d).comment =
      (s.find? (fun r => r.date == d)).bind (fun r => r.comment) := rfl

theorem map_date_prepare (s : List ConditionRecord) (year : Nat) :
    ((yearDates year).map (yearlyRow s)).map (fun row => row.date) =
      yearDates year := by
  rw [List.map_map]
  have h : ((fun row : GridRow => row.date) ∘ yearlyRow s) = id := rfl
  rw [h, List.map_id]

/-- C1: for every year and every series with no duplicate dates (the
series invariant checked by the join's `validate="1:1"`),
`_prepare_yearly_frame` succeeds and returns a grid with exactly 365 rows
(366 in a leap year) whose date column is the complete, strictly
ascending run of the year's calendar days; rows whose date is missing
from the series carry an absent condition and comment rather than being
omitted. -/
theorem prepare_yearly_frame_spec (year : Nat) (s : List ConditionRecord)
    (hs : (s.map (fun r => r.date)).Nodup) :
    ∃ g, prepare_yearly_frame s year = some g ∧
      g.length = (if isLeapYear year then 366 else 365) ∧
      g.map (fun row => row.date) = yearDates year ∧
      (g.map (fun row => row.date)).Pairwise Date.lt ∧
      (∀ d : Date, d ∈ g.map (fun row => row.date) ↔
        (d.year = year ∧ 1 ≤ d.month ∧ d.month ≤ 12 ∧ 1 ≤ d.day ∧
          d.day ≤ daysInMonth year d.month)) ∧
      (∀ row ∈ g, row.date ∉ s.map (fun r => r.date) →
        row.condition = none ∧ row.comment = none) := by
  refine ⟨(yearDates year).map (yearlyRow s), ?_, ?_, ?_, ?_, ?_, ?_⟩
  · rw [prepare_yearly_frame, if_pos hs]
  · rw [List.length_map, length_yearDates]
  · exact map_date_prepare s year
  · rw [map_date_prepare]; exact pairwise_yearDates year
  · intro d; rw [map_date_prepare]; exact mem_yearDates
  · intro row hrow hmiss
    rw [List.mem_map] at hrow
    obtain ⟨d, _, rfl⟩ := hrow
    have hfind : s.find? (fun r => r.date == d) = none := by
      rw [List.find?_eq_none]
      intro x hx
      simp only [beq_iff_eq]
      intro he
      exact hmiss (List.mem_map.mpr ⟨x, hx, he⟩)
    constructor
    · show (s.find? (fun r => r.date == d)).bind (fun r => r.condition) = none
      rw [hfind]; rfl
    · show (s.find? (fun r => r.date == d)).bind (fun r => r.comment) = none
      rw [hfind]; rfl

/-- Witness for C1 at year 2024 (a leap year) and the empty series. -/
theorem prepare_yearly_frame_spec_witness :
    ∃ g, prepare_yearly_frame [] 2024 = some g ∧
      g.length = (if isLeapYear 2024 then 366 else 365) ∧
      g.map (fun row => row.date) = yearDates 2024 ∧
      (g.map (fun row => row.date)).Pairwise Date.lt ∧
      (∀ d : Date, d ∈ g.map (fun row => row.date) ↔
        (d.year = 2024 ∧ 1 ≤ d.month ∧ d.month ≤ 12 ∧ 1 ≤ d.day ∧
          d.day ≤ daysInMonth 2024 d.month)) ∧
      (∀ row ∈ g, row.date ∉ ([] : List ConditionRecord).map (fun r => r.date) →
        row.condition = none ∧ row.comment = none) :=
  prepare_yearly_frame_spec 2024 [] (by simp)

/-- C4: in every yearly grid row, `曜日` is the fixed 7-symbol mapping
applied to the date's ISO weekday (Monday = 1 … Sunday = 7, which always
lies in 1..7), and `土日判定` is 5 exactly on Saturday (6) and Sunday (7)
and 0 otherwise. -/
theorem yearly_grid_weekday_columns (year : Nat) (s : List ConditionRecord)
    (g : List GridRow) (hg : prepare_yearly_frame s year = some g) :
    ((List.range 7).map (fun i => jpWeekday (i + 1)) =
        ["月", "火", "水", "木", "金", "土", "日"]) ∧
    ∀ row ∈ g,
      row.weekdayName = jpWeekday (isoWeekday row.date) ∧
      1 ≤ isoWeekday row.date ∧ isoWeekday row.date ≤ 7 ∧
      (row.weekendFlag = 5 ↔ (isoWeekday row.date = 6 ∨ isoWeekday row.date = 7)) ∧
      (row.weekendFlag = 0 ↔ ¬(isoWeekday row.date = 6 ∨ isoWeekday row.date = 7)) := by
  constructor
  · decide
  · rw [prepare_yearly_frame] at hg
    split at hg
    · cases hg
      intro row hrow
      rw [List.mem_map] at hrow
      obtain ⟨d, _, rfl⟩ := hrow
      refine ⟨rfl, isoWeekday_ge_one d, isoWeekday_le_seven d, ?_, ?_⟩
      · show weekendMarker (isoWeekday d) = 5 ↔ _
        unfold weekendMarker
        split <;> simp_all
      · show weekendMarker (isoWeekday d) = 0 ↔ _
        unfold weekendMarker
        split <;> simp_all
    · cases hg

/-- Witness for C4 at year 2023 and the empty series. -/
theorem yearly_grid_weekday_columns_witness :
    ((List.range 7).map (fun i => jpWeekday (i + 1)) =
        ["月", "火", "水", "木", "金", "土", "日"]) ∧
    ∀ row ∈ (yearDates 2023).map (yearlyRow []),
      row.weekdayName = jpWeekday (isoWeekday row.date) ∧
      1 ≤ isoWeekday row.date ∧ isoWeekday row.date ≤ 7 ∧
      (row.weekendFlag = 5 ↔ (isoWeekday row.date = 6 ∨ isoWeekday row.date = 7)) ∧
      (row.weekendFlag = 0 ↔ ¬(isoWeekday row.date = 6 ∨ isoWeekday row.date = 7)) :=
  yearly_grid_weekday_columns 2023 [] _ (by simp [prepare_yearly_frame])

/-- Count of grid rows whose condition equals code `c`: the entry that
`yearly_df.group_by("体調").len(..)` produces for key `c` (the group for
a null condition has key `null` and never joins a skeleton code). -/
def countCode (rows : List GridRow) (c : Int) : Nat :=
  (rows.filter (fun r => r.condition == some c)).length

/-- The count cell that the left join of the skeleton with the
`group_by("体調").len(..)` frame yields for code `c`: absent when the
code never occurs (no group to join), else the count. -/
def joinedCount (rows : List GridRow) (c : Int) : Option Nat :=
  if countCode rows c = 0 then none else some (countCode rows c)

/-- The fixed 6-row category skeleton
`{"調子": ["↑","↗","→","↘","↓","⇓"], "体調": [5,4,3,2,1,0]}` of
`_prepare_agg_frame`. -/
def skeleton : List (String × Int) :=
  [("↑", 5), ("↗", 4), ("→", 3), ("↘", 2), ("↓", 1), ("⇓", 0)]

/-- One row of the aggregate table: the display symbol `調子`, the code
`体調`, the yearly count column `年間`, and one labelled count column
`n月` per month group. -/
structure AggRow where
  mark : String
  code : Int
  yearly : Option Nat
  months : List (Nat × Option Nat)
deriving DecidableEq, Repr

/-- Embedding of `_iter_yearly_data(df, "1mo")` applied to rows of a
single year: `group_by_dynamic("日付", every="1mo", period="1mo")`
produces one group per month that actually occurs, keyed by the month
start (the `isinstance(.., date)` filter never drops these date keys),
in ascending month order for a sorted frame. -/
def monthGroups (rows : List GridRow) : List (Nat × List GridRow) :=
  (List.range 12).filterMap (fun i =>
    let gm := rows.filter (fun r => r.date.month == i + 1)
    if gm.isEmpty then none else some (i + 1, gm))

/-- Embedding of `_prepare_agg_frame(yearly_df)`: start from the 6-row
skeleton, left-join the yearly counts, then left-join one count column
per month group. -/
def prepare_agg_frame (grid : List GridRow) : List AggRow :=
  skeleton.map (fun p =>
    { mark := p.1
      code := p.2
      yearly := joinedCount grid p.2
      months := (monthGroups grid).map (fun q => (q.1, joinedCount q.2 p.2)) })

/-- Embedding of `agg_df.fill_null(strategy="zero")` from `_write_yearly_agg_data`:
every absent count becomes the number 0. -/
def fill_null_zero (rows : List AggRow) : List AggRow :=
  rows.map (fun r =>
    { r with
      yearly := some (r.yearly.getD 0)
      months := r.months.map (fun q => (q.1, some (q.2.getD 0))) })

/-- Embedding of `_write_yearly_agg_data`: the aggregate table as written
to the sheet (prepared, then null-filled with zeros). -/
def write_yearly_agg_data (grid : List GridRow) : List AggRow :=
  fill_null_zero (prepare_agg_frame grid)

/-- Whether a grid row carries a present condition code within the
skeleton's range 0..5. -/
def inRangeCondition (r : GridRow) : Bool :=
  match r.condition with
  | some c => decide (0 ≤ c ∧ c ≤ 5)
  | none => false

/-- Numeric value of the yearly column summed over the table. -/
def yearColSum (agg : List AggRow) : Nat :=
  (agg.map (fun r => r.yearly.getD 0)).sum

/-- Numeric value of the `i`-th month column in one row (0 when the
column or the cell is absent). -/
def monthCellAt (r : AggRow) (i : Nat) : Nat :=
  (r.months[i]?.map (fun q => q.2.getD 0)).getD 0

/-- Numeric value of the `i`-th month column summed over the table. -/
def monthColSumAt (agg : List AggRow) (i : Nat) : Nat :=
  (agg.map (fun r => monthCellAt r i)).sum

theorem joinedCount_getD (rows : List GridRow) (c : Int) :
    (joinedCount rows c).getD 0 = countCode rows c := by
  unfold joinedCount
  split
  · simp [*]
  · rfl

theorem countCode_cons (r : GridRow) (rs : List GridRow) (c : Int) :
    countCode (r :: rs) c =
      (if r.condition = some c then 1 else 0) + countCode rs c := by
  unfold countCode
  rw [List.filter_cons]
  split
  · rename_i h
    rw [beq_iff_eq] at h
    rw [if_pos h, List.length_cons]
    omega
  · rename_i h
    rw [beq_iff_eq] at h
    rw [if_neg h]
    omega

/-- Partition: the six skeleton counts together count exactly the rows
whose condition is a present code in 0..5. -/
theorem sum_countCode_skeleton (rows : List GridRow) :
    (skeleton.map (fun p => countCode rows p.2)).sum =
      (rows.filter inRangeCondition).length := by
  induction rows with
  | nil => simp [skeleton, countCode]
  | cons r rs ih =>
    rw [List.filter_cons]
    simp only [skeleton, List.map_cons, List.map_nil, List.sum_cons, List.sum_nil,
      countCode_cons] at ih ⊢
    rcases hr : r.condition with _ | c
    · have hc : inRangeCondition r = false := by simp [inRangeCondition, hr]
      simp only [hr, hc, Bool.false_eq_true, if_false, reduceCtorEq, if_neg]
      omega
    · have hc : inRangeCondition r = decide (0 ≤ c ∧ c ≤ 5) := by
        simp [inRangeCondition, hr]
      simp only [hr, hc, Option.some.injEq, decide_eq_true_eq]
      by_cases hin : 0 ≤ c ∧ c ≤ 5
      · rw [if_pos hin, List.length_cons]
        split_ifs <;> omega
      · rw [if_neg hin]
        split_ifs <;> omega

theorem filterMap_eq_map_of_forall {α β : Type} {f : α → Option β} {g : α → β} :
    ∀ l : List α, (∀ a ∈ l, f a = some (g a)) → l.filterMap f = l.map g := by
  intro l
  induction l with
  | nil => intro _; rfl
  | cons a l ih =>
    intro h
    rw [List.filterMap_cons, h a (by simp), List.map_cons,
      ih (fun b hb => h b (by simp [hb]))]

/-- On a grid where every month of the year occurs, the dynamic monthly
grouping yields exactly the twelve month groups in order. -/
theorem monthGroups_complete {g : List GridRow}
    (h : ∀ i, i < 12 → ∃ r ∈ g, r.date.month = i + 1) :
    monthGroups g =
      (List.range 12).map
        (fun i => (i + 1, g.filter (fun r => r.date.month == i + 1))) := by
  unfold monthGroups
  apply filterMap_eq_map_of_forall
  intro i hi
  rw [List.mem_range] at hi
  obtain ⟨r, hr, hm⟩ := h i hi
  have hne : g.filter (fun r => r.date.month == i + 1) ≠ [] :=
    List.ne_nil_of_mem (List.mem_filter.mpr ⟨hr, by simp [hm]⟩)
  simp only [List.isEmpty_iff, hne, if_false, reduceIte]

/-- Every month 1..12 is inhabited in a yearly grid. -/
theorem grid_month_inhabited (year : Nat) (s : List ConditionRecord) :
    ∀ i, i < 12 →
      ∃ r ∈ (yearDates year).map (yearlyRow s), r.date.month = i + 1 := by
  intro i hi
  refine ⟨yearlyRow s ⟨year, i + 1, 1⟩, List.mem_map_of_mem _ ?_, rfl⟩
  refine mem_yearDates.mpr ⟨rfl, ?_, ?_, ?_, ?_⟩
  · show 1 ≤ i + 1; omega
  · show i + 1 ≤ 12; omega
  · show (1 : Nat) ≤ 1; omega
  · show (1 : Nat) ≤ daysInMonth year (i + 1)
    exact daysInMonth_pos year (i + 1)

/-- Every condition code present in the grid comes from the series. -/
theorem grid_condition_mem (s : List ConditionRecord) (year : Nat) :
    ∀ row ∈ (yearDates year).map (yearlyRow s), ∀ c : Int,
      row.condition = some c → ∃ rec ∈ s, rec.condition = some c := by
  intro row hrow c hc
  rw [List.mem_map] at hrow
  obtain ⟨d, _, rfl⟩ := hrow
  rw [yearlyRow_condition, Option.bind_eq_some] at hc
  obtain ⟨r, hfind, hrc⟩ := hc
  exact ⟨r, List.mem_of_find?_eq_some hfind, hrc⟩

/-- C6: in the aggregate table as written (`_write_yearly_agg_data`,
i.e. after `fill_null(strategy="zero")`), all 6 skeleton rows are
preserved and every count cell — the yearly one and each of the 12
month columns — is a defined number equal to the corresponding
occurrence count; in particular a category/month with zero occurrences
carries the number 0, not an absent value. -/
theorem write_yearly_agg_cells (year : Nat) (s : List ConditionRecord)
    (g : List GridRow) (hg : prepare_yearly_frame s year = some g) :
    ((write_yearly_agg_data g).map (fun row => (row.mark, row.code)) = skeleton) ∧
    ∀ row ∈ write_yearly_agg_data g,
      row.yearly = some (countCode g row.code) ∧
      row.months.length = 12 ∧
      ∀ i, i < 12 →
        row.months[i]? =
          some (i + 1,
            some (countCode (g.filter (fun x => x.date.month == i + 1)) row.code)) := by
  rw [prepare_yearly_frame] at hg
  split at hg
  case isFalse => cases hg
  case isTrue hs =>
    cases hg
    have hmg := monthGroups_complete (grid_month_inhabited year s)
    constructor
    · simp [write_yearly_agg_data, fill_null_zero, prepare_agg_frame, skeleton]
    · intro row hrow
      simp only [write_yearly_agg_data, fill_null_zero, prepare_agg_frame,
        List.map_map, List.mem_map] at hrow
      obtain ⟨p, hp, rfl⟩ := hrow
      simp only [Function.comp_apply]
      refine ⟨?_, ?_, ?_⟩
      · show some ((joinedCount _ p.2).getD 0) = some (countCode _ _)
        rw [joinedCount_getD]
      · simp [hmg]
      · intro i hi
        simp only [hmg, List.map_map, List.getElem?_map, List.getElem?_range hi,
          Option.map_some, Function.comp_apply, joinedCount_getD]
        simp [joinedCount_getD]

/-- C2: the aggregate table of a yearly grid has exactly the 6 skeleton
category rows (codes 5..0 once each); the yearly column sums to the
number of grid rows with a present condition, and each of the 12 month
columns sums to the number of that month's grid rows with a present
condition (conditions are category codes 0..5 by the data-model
invariant, taken as a hypothesis on the series). -/
theorem write_yearly_agg_sums (year : Nat) (s : List ConditionRecord)
    (g : List GridRow) (hg : prepare_yearly_frame s year = some g)
    (hcond : ∀ r ∈ s, ∀ c : Int, r.condition = some c → 0 ≤ c ∧ c ≤ 5) :
    (write_yearly_agg_data g).length = 6 ∧
    ((write_yearly_agg_data g).map (fun row => (row.mark, row.code)) = skeleton) ∧
    yearColSum (write_yearly_agg_data g) =
      (g.filter (fun row => row.condition.isSome)).length ∧
    ∀ i, i < 12 →
      monthColSumAt (write_yearly_agg_data g) i =
        (g.filter (fun row => row.date.month == i + 1 && row.condition.isSome)).length := by
  rw [prepare_yearly_frame] at hg
  split at hg
  case isFalse => cases hg
  case isTrue hs =>
    cases hg
    set G := (yearDates year).map (yearlyRow s) with hG
    have hmg := monthGroups_complete (grid_month_inhabited year s)
    have hinr : ∀ row ∈ G, inRangeCondition row = row.condition.isSome := by
      intro row hrow
      rcases hc : row.condition with _ | c
      · simp [inRangeCondition, hc]
      · have := grid_condition_mem s year row hrow c hc
        obtain ⟨rec, hrec, hrc⟩ := this
        have hb := hcond rec hrec c hrc
        simp [inRangeCondition, hc, decide_eq_true_eq, hb]
    refine ⟨?_, ?_, ?_, ?_⟩
    · simp [write_yearly_agg_data, fill_null_zero, prepare_agg_frame, skeleton]
    · simp [write_yearly_agg_data, fill_null_zero, prepare_agg_frame, skeleton]
    · unfold yearColSum write_yearly_agg_data fill_null_zero prepare_agg_frame
      rw [List.map_map, List.map_map]
      have he : (((fun r : AggRow => r.yearly.getD 0) ∘
            (fun r : AggRow =>
              { r with
                yearly := some (r.yearly.getD 0)
                months := r.months.map (fun q => (q.1, some (q.2.getD 0))) })) ∘
            (fun p : String × Int =>
              ({ mark := p.1, code := p.2, yearly := joinedCount G p.2,
                 months := (monthGroups G).map
                   (fun q => (q.1, joinedCount q.2 p.2)) } : AggRow))) =
          (fun p : String × Int => countCode G p.2) := by
        funext p
        simp [joinedCount_getD]
      rw [he, sum_countCode_skeleton, List.filter_congr hinr]
    · intro i hi
      unfold monthColSumAt write_yearly_agg_data fill_null_zero prepare_agg_frame
      rw [List.map_map, List.map_map]
      have hcell : (((fun r : AggRow => monthCellAt r i) ∘
            (fun r : AggRow =>
              { r with
                yearly := some (r.yearly.getD 0)
                months := r.months.map (fun q => (q.1, some (q.2.getD 0))) })) ∘
            (fun p : String × Int =>
              ({ mark := p.1, code := p.2, yearly := joinedCount G p.2,
                 months := (monthGroups G).map
                   (fun q => (q.1, joinedCount q.2 p.2)) } : AggRow))) =
          (fun p : String × Int =>
            countCode (G.filter (fun r => r.date.month == i + 1)) p.2) := by
        funext p
        simp only [Function.comp_apply, monthCellAt, hmg, List.map_map,
          List.getElem?_map, List.getElem?_range hi, Option.map_some,
          Function.comp_apply, joinedCount_getD]
        simp [joinedCount_getD]
      rw [hcell, sum_countCode_skeleton, List.filter_filter]
      refine congrArg List.length (List.filter_congr ?_)
      intro r hr
      rw [hinr r hr, Bool.and_comm]

theorem filter_length_le_of_imp {α : Type} (p q : α → Bool) :
    ∀ l : List α, (∀ a ∈ l, p a = true → q a = true) →
      (l.filter p).length ≤ (l.filter q).length := by
  intro l
  induction l with
  | nil => intro _; simp
  | cons x xs ih =>
    intro h
    have hx := ih (fun a ha => h a (by simp [ha]))
    rw [List.filter_cons, List.filter_cons]
    by_cases hp : p x = true
    · rw [if_pos hp, if_pos (h x (by simp) hp)]
      simpa using hx
    · rw [if_neg hp]
      split
      · simp only [List.length_cons]; omega
      · exact hx

theorem filter_length_lt_of_witness {α : Type} (p q : α → Bool) :
    ∀ l : List α, (∀ a ∈ l, p a = true → q a = true) →
      ∀ a ∈ l, q a = true → p a = false →
        (l.filter p).length < (l.filter q).length := by
  intro l
  induction l with
  | nil => intro _ a ha; cases ha
  | cons x xs ih =>
    intro h a ha hqa hpa
    rw [List.filter_cons, List.filter_cons]
    rcases List.mem_cons.mp ha with rfl | ha2
    · rw [if_neg (by simp [hpa]), if_pos hqa, List.length_cons]
      have := filter_length_le_of_imp p q xs (fun b hb => h b (by simp [hb]))
      omega
    · have hlt := ih (fun b hb => h b (by simp [hb])) a ha2 hqa hpa
      by_cases hp : p x = true
      · rw [if_pos hp, if_pos (h x (by simp) hp)]
        simp only [List.length_cons]
        omega
      · rw [if_neg hp]
        split
        · simp only [List.length_cons]; omega
        · exact hlt

/-- C10: a grid carrying a condition code outside 0..5 (possible because
the prior-report reader validates nothing) still aggregates to exactly
the 6 skeleton rows, and the out-of-range row is silently excluded from
every yearly and monthly count: the column sums count only in-range
present conditions, and are strictly below the number of present
conditions. -/
theorem prepare_agg_out_of_range (g : List GridRow)
    (hbad : ∃ row ∈ g, ∃ c : Int, row.condition = some c ∧ (c < 0 ∨ 5 < c)) :
    ((prepare_agg_frame g).map (fun row => (row.mark, row.code)) = skeleton) ∧
    (prepare_agg_frame g).length = 6 ∧
    yearColSum (write_yearly_agg_data g) = (g.filter inRangeCondition).length ∧
    (g.filter inRangeCondition).length <
      (g.filter (fun row => row.condition.isSome)).length ∧
    ∀ i : Nat, ∀ mg : Nat × List GridRow, (monthGroups g)[i]? = some mg →
      monthColSumAt (write_yearly_agg_data g) i =
        (mg.2.filter inRangeCondition).length := by
  refine ⟨?_, ?_, ?_, ?_, ?_⟩
  · simp [prepare_agg_frame, skeleton]
  · simp [prepare_agg_frame, skeleton]
  · unfold yearColSum write_yearly_agg_data fill_null_zero prepare_agg_frame
    rw [List.map_map, List.map_map]
    have he : (((fun r : AggRow => r.yearly.getD 0) ∘
          (fun r : AggRow =>
            { r with
              yearly := some (r.yearly.getD 0)
              months := r.months.map (fun q => (q.1, some (q.2.getD 0))) })) ∘
          (fun p : String × Int =>
            ({ mark := p.1, code := p.2, yearly := joinedCount g p.2,
               months := (monthGroups g).map
                 (fun q => (q.1, joinedCount q.2 p.2)) } : AggRow))) =
        (fun p : String × Int => countCode g p.2) := by
      funext p
      simp [joinedCount_getD]
    rw [he, sum_countCode_skeleton]
  · obtain ⟨row, hrow, c, hc, hout⟩ := hbad
    refine filter_length_lt_of_witness _ _ g ?_ row hrow ?_ ?_
    · intro a _ hpa
      rcases ha : a.condition with _ | c2
      · rw [inRangeCondition, ha] at hpa; cases hpa
      · simp [ha]
    · simp [hc]
    · rw [inRangeCondition, hc]
      simp only [decide_eq_false_iff_not]
      omega
  · intro i mg hm
    unfold monthColSumAt write_yearly_agg_data fill_null_zero prepare_agg_frame
    rw [List.map_map, List.map_map]
    have hcell : (((fun r : AggRow => monthCellAt r i) ∘
          (fun r : AggRow =>
            { r with
              yearly := some (r.yearly.getD 0)
              months := r.months.map (fun q => (q.1, some (q.2.getD 0))) })) ∘
          (fun p : String × Int =>
            ({ mark := p.1, code := p.2, yearly := joinedCount g p.2,
               months := (monthGroups g).map
                 (fun q => (q.1, joinedCount q.2 p.2)) } : AggRow))) =
        (fun p : String × Int => countCode mg.2 p.2) := by
      funext p
      simp only [Function.comp_apply, monthCellAt, List.map_map,
        List.getElem?_map, hm, Option.map_some, joinedCount_getD]
      simp [joinedCount_getD]
    rw [hcell, sum_countCode_skeleton]

/-- Witness for C2 at year 2024 and the empty series. -/
theorem write_yearly_agg_sums_witness :
    (write_yearly_agg_data ((yearDates 2024).map (yearlyRow []))).length = 6 ∧
    ((write_yearly_agg_data ((yearDates 2024).map (yearlyRow []))).map
        (fun row => (row.mark, row.code)) = skeleton) ∧
    yearColSum (write_yearly_agg_data ((yearDates 2024).map (yearlyRow []))) =
      (((yearDates 2024).map (yearlyRow [])).filter
        (fun row => row.condition.isSome)).length ∧
    ∀ i, i < 12 →
      monthColSumAt (write_yearly_agg_data ((yearDates 2024).map (yearlyRow []))) i =
        (((yearDates 2024).map (yearlyRow [])).filter
          (fun row => row.date.month == i + 1 && row.condition.isSome)).length :=
  write_yearly_agg_sums 2024 [] _ (by simp [prepare_yearly_frame])
    (fun r hr => absurd hr (List.not_mem_nil r))

/-- Witness for C6 at year 2024 and the empty series. -/
theorem write_yearly_agg_cells_witness :
    ((write_yearly_agg_data ((yearDates 2024).map (yearlyRow []))).map
        (fun row => (row.mark, row.code)) = skeleton) ∧
    ∀ row ∈ write_yearly_agg_data ((yearDates 2024).map (yearlyRow [])),
      row.yearly = some (countCode ((yearDates 2024).map (yearlyRow [])) row.code) ∧
      row.months.length = 12 ∧
      ∀ i, i < 12 →
        row.months[i]? =
          some (i + 1,
            some (countCode
              (((yearDates 2024).map (yearlyRow [])).filter
                (fun x => x.date.month == i + 1)) row.code)) :=
  write_yearly_agg_cells 2024 [] _ (by simp [prepare_yearly_frame])

/-- A one-row grid whose condition code 7 lies outside the skeleton's
0..5 range (as an unvalidated prior report can produce). -/
def badGrid : List GridRow :=
  [{ date := ⟨2024, 1, 1⟩, condition := some 7, comment := none,
     weekdayName := "月", weekendFlag := 0 }]

/-- Witness for C10 on `badGrid`. -/
theorem prepare_agg_out_of_range_witness :
    ((prepare_agg_frame badGrid).map (fun row => (row.mark, row.code)) = skeleton) ∧
    (prepare_agg_frame badGrid).length = 6 ∧
    yearColSum (write_yearly_agg_data badGrid) =
      (badGrid.filter inRangeCondition).length ∧
    (badGrid.filter inRangeCondition).length <
      (badGrid.filter (fun row => row.condition.isSome)).length ∧
    ∀ i : Nat, ∀ mg : Nat × List GridRow, (monthGroups badGrid)[i]? = some mg →
      monthColSumAt (write_yearly_agg_data badGrid) i =
        (mg.2.filter inRangeCondition).length :=
  prepare_agg_out_of_range badGrid
    ⟨_, List.mem_cons_self _ _, 7, rfl, Or.inr (by norm_num)⟩

/-- Embedding of `former_condition_df.merge_sorted(condition_df,
key="日付")` from `extract_condition_data`: the stable merge of two
date-sorted frames; on equal keys the left (prior) frame's row is
emitted first. -/
def mergeSorted : List ConditionRecord → List ConditionRecord → List ConditionRecord
  | [], ys => ys
  | x :: xs, [] => x :: xs
  | x :: xs, y :: ys =>
    if Date.le x.date y.date then x :: mergeSorted xs (y :: ys)
    else y :: mergeSorted (x :: xs) ys
termination_by xs ys => xs.length + ys.length
decreasing_by all_goals simp_arith

/-- Embedding of `.unique(subset="日付", keep="last")`: keep, in order,
each row whose date does not occur again later in the frame. -/
def uniqueKeepLast : List ConditionRecord → List ConditionRecord
  | [] => []
  | x :: xs =>
    if xs.any (fun y => y.date == x.date) then uniqueKeepLast xs
    else x :: uniqueKeepLast xs

/-- The merge step of `extract_condition_data`:
`former.merge_sorted(incoming, key="日付").unique(subset="日付",
keep="last")`. -/
def merge_condition_data (former incoming : List ConditionRecord) :
    List ConditionRecord :=
  uniqueKeepLast (mergeSorted former incoming)

theorem mem_mergeSorted :
    ∀ (xs ys : List ConditionRecord) (r : ConditionRecord),
      r ∈ mergeSorted xs ys ↔ r ∈ xs ∨ r ∈ ys := by
  intro xs
  induction xs with
  | nil => intro ys r; simp [mergeSorted]
  | cons x xs ihx =>
    intro ys
    induction ys with
    | nil => intro r; simp [mergeSorted]
    | cons y ys ihy =>
      intro r
      rw [mergeSorted]
      split
      · simp only [List.mem_cons, ihx]
        tauto
      · simp only [List.mem_cons, ihy]
        tauto

theorem mem_of_mem_uniqueKeepLast :
    ∀ (l : List ConditionRecord) (r : ConditionRecord),
      r ∈ uniqueKeepLast l → r ∈ l := by
  intro l
  induction l with
  | nil => intro r h; cases h
  | cons x xs ih =>
    intro r h
    rw [uniqueKeepLast] at h
    split at h
    · exact List.mem_cons_of_mem x (ih r h)
    · rcases List.mem_cons.mp h with rfl | h2
      · exact List.mem_cons_self _ _
      · exact List.mem_cons_of_mem x (ih r h2)

theorem uniqueKeepLast_eq_self :
    ∀ l : List ConditionRecord,
      (l.map (fun r => r.date)).Nodup → uniqueKeepLast l = l := by
  intro l
  induction l with
  | nil => intro _; rfl
  | cons x xs ih =>
    intro h
    rw [List.map_cons, List.nodup_cons] at h
    rw [uniqueKeepLast, if_neg, ih h.2]
    simp only [List.any_eq_true, beq_iff_eq, not_exists, not_and]
    intro y hy he
    exact h.1 (List.mem_map.mpr ⟨y, hy, he⟩)

/-- Core correctness of the newest-wins merge: the result is strictly
date-sorted, and it holds exactly the incoming records plus those prior
records whose date the incoming series does not mention. -/
theorem merge_spec :
    ∀ xs ys : List ConditionRecord,
      (xs.map (fun r => r.date)).Pairwise Date.lt →
      (ys.map (fun r => r.date)).Pairwise Date.lt →
      ((merge_condition_data xs ys).map (fun r => r.date)).Pairwise Date.lt ∧
      ∀ r : ConditionRecord,
        r ∈ merge_condition_data xs ys ↔
          (r ∈ ys ∨ (r ∈ xs ∧ ∀ q ∈ ys, q.date ≠ r.date)) := by
  intro xs
  induction xs with
  | nil =>
    intro ys hx hy
    have hnd : (ys.map (fun r => r.date)).Nodup :=
      hy.imp (fun h => Date.ne_of_lt h)
    have he : merge_condition_data [] ys = ys := by
      rw [merge_condition_data, mergeSorted.eq_def]
      exact uniqueKeepLast_eq_self ys hnd
    rw [he]
    exact ⟨hy, fun r => by simp⟩
  | cons x xs ihx =>
    intro ys
    induction ys with
    | nil =>
      intro hx _
      have hnd : ((x :: xs).map (fun r => r.date)).Nodup :=
        hx.imp (fun h => Date.ne_of_lt h)
      have he : merge_condition_data (x :: xs) [] = x :: xs := by
        rw [merge_condition_data, mergeSorted.eq_def]
        exact uniqueKeepLast_eq_self _ hnd
      rw [he]
      exact ⟨hx, fun r => by simp⟩
    | cons y ys ihy =>
      intro hx hy
      have hxc := hx
      rw [List.map_cons, List.pairwise_cons] at hxc
      have hxd : ∀ q ∈ xs, Date.lt x.date q.date :=
        fun q hq => hxc.1 _ (List.mem_map_of_mem _ hq)
      have hx' : (xs.map (fun r => r.date)).Pairwise Date.lt := hxc.2
      have hyc := hy
      rw [List.map_cons, List.pairwise_cons] at hyc
      have hyd : ∀ q ∈ ys, Date.lt y.date q.date :=
        fun q hq => hyc.1 _ (List.mem_map_of_mem _ hq)
      have hy' : (ys.map (fun r => r.date)).Pairwise Date.lt := hyc.2
      rw [merge_condition_data, mergeSorted]
      by_cases hle : Date.le x.date y.date
      · rw [if_pos hle]
        by_cases heq : x.date = y.date
        · -- the prior head is dropped: its date occurs again (as `y`)
          have hxm : (mergeSorted xs (y :: ys)).any
              (fun q => q.date == x.date) = true := by
            rw [List.any_eq_true]
            exact ⟨y, (mem_mergeSorted xs (y :: ys) y).mpr
              (Or.inr (List.mem_cons_self _ _)), by simp [heq]⟩
          rw [uniqueKeepLast, if_pos hxm]
          obtain ⟨ih1, ih2⟩ := ihx (y :: ys) hx' hy
          rw [merge_condition_data] at ih1 ih2
          refine ⟨ih1, ?_⟩
          intro r
          rw [ih2 r]
          constructor
          · rintro (h | ⟨hr, hq⟩)
            · exact Or.inl h
            · exact Or.inr ⟨List.mem_cons_of_mem x hr, hq⟩
          · rintro (h | ⟨hr, hq⟩)
            · exact Or.inl h
            · rcases List.mem_cons.mp hr with rfl | hr2
              · exact absurd heq.symm (hq y (List.mem_cons_self _ _))
              · exact Or.inr ⟨hr2, hq⟩
        · -- the prior head is strictly first and is kept
          have hlt : Date.lt x.date y.date := Date.lt_of_le_of_ne hle heq
          have hall : ∀ q ∈ mergeSorted xs (y :: ys), Date.lt x.date q.date := by
            intro q hq
            rcases (mem_mergeSorted xs (y :: ys) q).mp hq with h1 | h2
            · exact hxd q h1
            · rcases List.mem_cons.mp h2 with rfl | h3
              · exact hlt
              · exact Date.lt_trans hlt (hyd q h3)
          have hxm : ¬ (mergeSorted xs (y :: ys)).any
              (fun q => q.date == x.date) = true := by
            rw [List.any_eq_true]
            rintro ⟨q, hq, hqe⟩
            rw [beq_iff_eq] at hqe
            exact Date.lt_irrefl x.date (hqe ▸ hall q hq)
          rw [uniqueKeepLast, if_neg hxm]
          obtain ⟨ih1, ih2⟩ := ihx (y :: ys) hx' hy
          rw [merge_condition_data] at ih1 ih2
          constructor
          · rw [List.map_cons, List.pairwise_cons]
            refine ⟨?_, ih1⟩
            intro d hd
            rw [List.mem_map] at hd
            obtain ⟨q, hq, rfl⟩ := hd
            exact hall q (mem_of_mem_uniqueKeepLast _ q hq)
          · intro r
            rw [List.mem_cons, ih2 r]
            constructor
            · rintro (rfl | h | ⟨hr, hq⟩)
              · refine Or.inr ⟨List.mem_cons_self _ _, ?_⟩
                intro q hq
                rcases List.mem_cons.mp hq with rfl | h3
                · exact (Date.ne_of_lt hlt).symm
                · exact (Date.ne_of_lt (Date.lt_trans hlt (hyd q h3))).symm
              · exact Or.inl h
              · exact Or.inr ⟨List.mem_cons_of_mem x hr, hq⟩
            · rintro (h | ⟨hr, hq⟩)
              · exact Or.inr (Or.inl h)
              · rcases List.mem_cons.mp hr with rfl | hr2
                · exact Or.inl rfl
                · exact Or.inr (Or.inr ⟨hr2, hq⟩)
      · -- the incoming head is strictly first and is kept
        rw [if_neg hle]
        have hgt : Date.lt y.date x.date := Date.lt_of_not_le hle
        have hall : ∀ q ∈ mergeSorted (x :: xs) ys, Date.lt y.date q.date := by
          intro q hq
          rcases (mem_mergeSorted (x :: xs) ys q).mp hq with h1 | h2
          · rcases List.mem_cons.mp h1 with rfl | h3
            · exact hgt
            · exact Date.lt_trans hgt (hxd q h3)
          · exact hyd q h2
        have hym : ¬ (mergeSorted (x :: xs) ys).any
            (fun q => q.date == y.date) = true := by
          rw [List.any_eq_true]
          rintro ⟨q, hq, hqe⟩
          rw [beq_iff_eq] at hqe
          exact Date.lt_irrefl y.date (hqe ▸ hall q hq)
        rw [uniqueKeepLast, if_neg hym]
        obtain ⟨ih1, ih2⟩ := ihy hx hy'
        rw [merge_condition_data] at ih1 ih2
        constructor
        · rw [List.map_cons, List.pairwise_cons]
          refine ⟨?_, ih1⟩
          intro d hd
          rw [List.mem_map] at hd
          obtain ⟨q, hq, rfl⟩ := hd
          exact hall q (mem_of_mem_uniqueKeepLast _ q hq)
        · intro r
          rw [List.mem_cons, ih2 r]
          constructor
          · rintro (rfl | h | ⟨hr, hq⟩)
            · exact Or.inl (List.mem_cons_self _ _)
            · exact Or.inl (List.mem_cons_of_mem y h)
            · refine Or.inr ⟨hr, ?_⟩
              intro q hqm
              rcases List.mem_cons.mp hqm with rfl | h3
              · rcases List.mem_cons.mp hr with rfl | hr2
                · exact Date.ne_of_lt hgt
                · exact Date.ne_of_lt (Date.lt_trans hgt (hxd r hr2))
              · exact hq q h3
          · rintro (h | ⟨hr, hq⟩)
            · rcases List.mem_cons.mp h with rfl | h2
              · exact Or.inl rfl
              · exact Or.inr (Or.inl h2)
            · exact Or.inr (Or.inr ⟨hr,
                fun q hqm => hq q (List.mem_cons_of_mem y hqm)⟩)

/-- C3: merging two date-sorted series yields a date-sorted series
without duplicate dates containing every date of either input; a date
present in both keeps exactly the incoming (newer) record, and a date
present in only one input keeps that input's record unchanged. -/
theorem merge_condition_data_spec (prior incoming : List ConditionRecord)
    (hp : (prior.map (fun r => r.date)).Pairwise Date.lt)
    (hi : (incoming.map (fun r => r.date)).Pairwise Date.lt) :
    ((merge_condition_data prior incoming).map (fun r => r.date)).Pairwise Date.lt ∧
    ((merge_condition_data prior incoming).map (fun r => r.date)).Nodup ∧
    (∀ d : Date,
      d ∈ (merge_condition_data prior incoming).map (fun r => r.date) ↔
        (d ∈ prior.map (fun r => r.date) ∨
          d ∈ incoming.map (fun r => r.date))) ∧
    (∀ r ∈ incoming, r ∈ merge_condition_data prior incoming) ∧
    (∀ r ∈ merge_condition_data prior incoming,
      r.date ∈ incoming.map (fun q => q.date) → r ∈ incoming) ∧
    (∀ r ∈ prior, r.date ∉ incoming.map (fun q => q.date) →
      r ∈ merge_condition_data prior incoming) := by
  obtain ⟨h1, h2⟩ := merge_spec prior incoming hp hi
  refine ⟨h1, h1.imp (fun h => Date.ne_of_lt h), ?_, ?_, ?_, ?_⟩
  · intro d
    constructor
    · intro hd
      rw [List.mem_map] at hd
      obtain ⟨r, hr, rfl⟩ := hd
      rcases (h2 r).mp hr with h | ⟨h, _⟩
      · exact Or.inr (List.mem_map_of_mem _ h)
      · exact Or.inl (List.mem_map_of_mem _ h)
    · intro hd
      by_cases hin : d ∈ incoming.map (fun q => q.date)
      · rw [List.mem_map] at hin
        obtain ⟨r, hr, rfl⟩ := hin
        exact List.mem_map_of_mem _ ((h2 r).mpr (Or.inl hr))
      · rcases hd with hd | hd
        · rw [List.mem_map] at hd
          obtain ⟨r, hr, rfl⟩ := hd
          refine List.mem_map_of_mem _ ((h2 r).mpr (Or.inr ⟨hr, ?_⟩))
          intro q hq he
          exact hin (he ▸ List.mem_map_of_mem _ hq)
        · exact absurd hd hin
  · intro r hr
    exact (h2 r).mpr (Or.inl hr)
  · intro r hr hd
    rcases (h2 r).mp hr with h | ⟨_, hq⟩
    · exact h
    · rw [List.mem_map] at hd
      obtain ⟨q, hqm, hqe⟩ := hd
      exact absurd hqe (hq q hqm)
  · intro r hr hd
    refine (h2 r).mpr (Or.inr ⟨hr, ?_⟩)
    intro q hq he
    exact hd (he ▸ List.mem_map_of_mem _ hq)

/-- Witness for C3 on the spec's scenario
`merge([(d1,1,"")], [(d1,2,"x"),(d2,3,"y")])`: the hypotheses hold, the
theorem applies, and the merged value is `[(d1,2,"x"), (d2,3,"y")]`. -/
theorem merge_condition_data_spec_witness :
    (([⟨⟨2024, 6, 5⟩, some 1, some ""⟩] :
        List ConditionRecord).map (fun r => r.date)).Pairwise Date.lt ∧
    (([⟨⟨2024, 6, 5⟩, some 2, some "x"⟩, ⟨⟨2024, 6, 6⟩, some 3, some "y"⟩] :
        List ConditionRecord).map (fun r => r.date)).Pairwise Date.lt ∧
    merge_condition_data
        [⟨⟨2024, 6, 5⟩, some 1, some ""⟩]
        [⟨⟨2024, 6, 5⟩, some 2, some "x"⟩, ⟨⟨2024, 6, 6⟩, some 3, some "y"⟩] =
      [⟨⟨2024, 6, 5⟩, some 2, some "x"⟩, ⟨⟨2024, 6, 6⟩, some 3, some "y"⟩] ∧
    (((merge_condition_data
          [⟨⟨2024, 6, 5⟩, some 1, some ""⟩]
          [⟨⟨2024, 6, 5⟩, some 2, some "x"⟩,
            ⟨⟨2024, 6, 6⟩, some 3, some "y"⟩]).map
        (fun r => r.date)).Pairwise Date.lt ∧
      ((merge_condition_data
          [⟨⟨2024, 6, 5⟩, some 1, some ""⟩]
          [⟨⟨2024, 6, 5⟩, some 2, some "x"⟩,
            ⟨⟨2024, 6, 6⟩, some 3, some "y"⟩]).map
        (fun r => r.date)).Nodup ∧
      (∀ d : Date,
        d ∈ (merge_condition_data
            [⟨⟨2024, 6, 5⟩, some 1, some ""⟩]
            [⟨⟨2024, 6, 5⟩, some 2, some "x"⟩,
              ⟨⟨2024, 6, 6⟩, some 3, some "y"⟩]).map (fun r => r.date) ↔
          (d ∈ ([⟨⟨2024, 6, 5⟩, some 1, some ""⟩] :
              List ConditionRecord).map (fun r => r.date) ∨
            d ∈ ([⟨⟨2024, 6, 5⟩, some 2, some "x"⟩,
              ⟨⟨2024, 6, 6⟩, some 3, some "y"⟩] :
              List ConditionRecord).map (fun r => r.date))) ∧
      (∀ r ∈ ([⟨⟨2024, 6, 5⟩, some 2, some "x"⟩,
          ⟨⟨2024, 6, 6⟩, some 3, some "y"⟩] : List ConditionRecord),
        r ∈ merge_condition_data
          [⟨⟨2024, 6, 5⟩, some 1, some ""⟩]
          [⟨⟨2024, 6, 5⟩, some 2, some "x"⟩,
            ⟨⟨2024, 6, 6⟩, some 3, some "y"⟩]) ∧
      (∀ r ∈ merge_condition_data
          [⟨⟨2024, 6, 5⟩, some 1, some ""⟩]
          [⟨⟨2024, 6, 5⟩, some 2, some "x"⟩,
            ⟨⟨2024, 6, 6⟩, some 3, some "y"⟩],
        r.date ∈ ([⟨⟨2024, 6, 5⟩, some 2, some "x"⟩,
            ⟨⟨2024, 6, 6⟩, some 3, some "y"⟩] :
            List ConditionRecord).map (fun q => q.date) →
          r ∈ ([⟨⟨2024, 6, 5⟩, some 2, some "x"⟩,
            ⟨⟨2024, 6, 6⟩, some 3, some "y"⟩] : List ConditionRecord)) ∧
      (∀ r ∈ ([⟨⟨2024, 6, 5⟩, some 1, some ""⟩] : List ConditionRecord),
        r.date ∉ ([⟨⟨2024, 6, 5⟩, some 2, some "x"⟩,
            ⟨⟨2024, 6, 6⟩, some 3, some "y"⟩] :
            List ConditionRecord).map (fun q => q.date) →
          r ∈ merge_condition_data
            [⟨⟨2024, 6, 5⟩, some 1, some ""⟩]
            [⟨⟨2024, 6, 5⟩, some 2, some "x"⟩,
              ⟨⟨2024, 6, 6⟩, some 3, some "y"⟩])) :=
  ⟨by decide, by decide,
    by simp [merge_condition_data, mergeSorted, uniqueKeepLast],
    merge_condition_data_spec _ _ (by decide) (by decide)⟩

/-- An exception raised inside `extract_condition_data`'s `try` block,
split by whether the `except (FileNotFoundError, ValueError, OSError)`
clause catches it: `caught` stands for those three types; `uncaught`
stands for every other exception — notably the polars errors
(`ColumnNotFoundError`, `SchemaError`, `ComputeError`, all subclasses of
`PolarsError(Exception)` only) that `merge_sorted(key="日付")` raises
when the prior frame lacks the expected columns, a state reachable
because `read_condition_xlsx` validates nothing. -/
inductive PyError where
  | caught (msg : String) : PyError
  | uncaught (msg : String) : PyError
deriving DecidableEq, Repr

/-- The optional prior-report input as seen at
`extract_condition_data`'s `try` block: the file may be absent
(`xlsx_file is None`), its reading-or-merging may raise an exception
(caught or not, see `PyError`), or it may yield a parsed prior series
that merges cleanly. -/
inductive PriorInput where
  | absent : PriorInput
  | failed (e : PyError) : PriorInput
  | ok (former : List ConditionRecord) : PriorInput
deriving DecidableEq, Repr

/-- Embedding of `extract_condition_data(csv_file, xlsx_file)` from
`gui.py`: a missing CSV raises a `ValueError` (modelled as
`Except.error`); a missing prior file returns the CSV series; a prior
file whose reading-or-merging raises one of the caught types
(`FileNotFoundError`, `ValueError`, `OSError`) is reported via
`st.error` (modelled as a returned warning list) and the CSV series is
returned unchanged; an exception of any other type propagates out of
the function and aborts the pipeline (modelled as `Except.error`);
otherwise the prior series is merged with
`merge_sorted(..).unique(subset="日付", keep="last")`. -/
def extract_condition_data (csv : Option (List ConditionRecord))
    (prior : PriorInput) :
    Except String (List ConditionRecord × List String) :=
  match csv with
  | none => Except.error "CSVファイルがアップロードされていません"
  | some condition_df =>
    match prior with
    | PriorInput.absent => Except.ok (condition_df, [])
    | PriorInput.failed (PyError.caught e) =>
      Except.ok (condition_df, ["xlsxファイルの読み込みに失敗しました: " ++ e])
    | PriorInput.failed (PyError.uncaught e) => Except.error e
    | PriorInput.ok former =>
      Except.ok (merge_condition_data former condition_df, [])

/-- Counterexample to C5 as stated: a prior input whose merging fails
with an exception outside the caught tuple — here the polars
`ColumnNotFoundError` raised by `merge_sorted(key="日付")` on a prior
frame read back with wrong columns — propagates and aborts the
pipeline instead of being downgraded to a warning with the CSV-only
result. -/
theorem extract_condition_data_uncaught_aborts :
    extract_condition_data (some [⟨⟨2024, 6, 5⟩, some 2, some "c1"⟩])
        (PriorInput.failed (PyError.uncaught "ColumnNotFoundError: 日付")) =
      Except.error "ColumnNotFoundError: 日付" ∧
    (extract_condition_data (some [⟨⟨2024, 6, 5⟩, some 2, some "c1"⟩])
        (PriorInput.failed (PyError.uncaught "ColumnNotFoundError: 日付"))).isOk
      = false :=
  ⟨rfl, rfl⟩

/-- C5 (amended): when reading or merging the prior spreadsheet fails
with one of the exception types the code catches (`FileNotFoundError`,
`ValueError`, `OSError`), the pipeline does not abort: the call returns
successfully, a (non-empty) warning is surfaced to the caller, and the
resulting series is exactly the series parsed from the incoming CSV,
unchanged; a reading-or-merging failure of any other exception type
propagates and aborts the call. -/
theorem extract_condition_data_prior_error_handling
    (csv : List ConditionRecord) (e : String) :
    (extract_condition_data (some csv) (PriorInput.failed (PyError.caught e)) =
      Except.ok (csv, ["xlsxファイルの読み込みに失敗しました: " ++ e])) ∧
    (∀ res warns,
      extract_condition_data (some csv) (PriorInput.failed (PyError.caught e)) =
        Except.ok (res, warns) → res = csv ∧ warns ≠ []) ∧
    (extract_condition_data (some csv)
        (PriorInput.failed (PyError.uncaught e))).isOk = false := by
  refine ⟨rfl, ?_, rfl⟩
  intro res warns h
  rw [extract_condition_data] at h
  cases h
  exact ⟨rfl, by simp⟩

/-- Witness for C5's amended statement at a concrete CSV series and
error message. -/
theorem extract_condition_data_prior_error_handling_witness :
    (extract_condition_data (some [⟨⟨2024, 6, 5⟩, some 2, some "c1"⟩])
        (PriorInput.failed (PyError.caught "boom")) =
      Except.ok ([⟨⟨2024, 6, 5⟩, some 2, some "c1"⟩],
        ["xlsxファイルの読み込みに失敗しました: " ++ "boom"])) ∧
    (∀ res warns,
      extract_condition_data (some [⟨⟨2024, 6, 5⟩, some 2, some "c1"⟩])
          (PriorInput.failed (PyError.caught "boom")) = Except.ok (res, warns) →
        res = [⟨⟨2024, 6, 5⟩, some 2, some "c1"⟩] ∧ warns ≠ []) ∧
    (extract_condition_data (some [⟨⟨2024, 6, 5⟩, some 2, some "c1"⟩])
        (PriorInput.failed (PyError.uncaught "boom"))).isOk = false :=
  extract_condition_data_prior_error_handling
    [⟨⟨2024, 6, 5⟩, some 2, some "c1"⟩] "boom"

/-- One worksheet of an xlsx file as the spreadsheet capability exposes
it: a name, a header row, and the table rows beneath it. -/
structure Sheet where
  name : String
  header : List String
  rows : List ConditionRecord
deriving DecidableEq, Repr

/-- Embedding of `read_condition_xlsx` (`read_data.py`):
`pl.read_excel(xlsx_source, sheet_name="data", engine="calamine")` looks
up the sheet literally named `data` — raising when it is absent — and
returns that sheet's table as-is; no schema or column validation is
performed. -/
def read_condition_xlsx (sheets : List Sheet) : Except String Sheet :=
  match sheets.find? (fun sh => sh.name == "data") with
  | none => Except.error "no sheet named data"
  | some sh => Except.ok sh

/-- Embedding of `_write_frame` (`condition_workbook.py`) for the raw
three-column frame: `df.write_excel(self, sheet_name, position="A1",
...)` writes the header `日付, 体調, コメント` and the frame's rows to
the named sheet. -/
def write_frame_sheet (df : List ConditionRecord) (sheet_name : String) : Sheet :=
  { name := sheet_name, header := ["日付", "体調", "コメント"], rows := df }

/-- Embedding of `_write_raw_data(df, "data")`: add a worksheet named
`data` and write the raw frame to it (in `output_excel` this is the
workbook's sheet of that name; the yearly sheets are named by 4-digit
year and can never collide with `"data"`). -/
def write_raw_data (df : List ConditionRecord) : List Sheet :=
  [write_frame_sheet df "data"]

/-- Counterexample to C7 as stated: a prior file whose `data` sheet has
columns `["a", "b"]` — not the expected three-column shape — is read
back successfully; `read_condition_xlsx` performs no column
validation. -/
theorem read_condition_xlsx_accepts_wrong_columns :
    (read_condition_xlsx [{ name := "data", header := ["a", "b"], rows := [] }]).isOk
        = true ∧
    (["a", "b"] ≠ ["日付", "体調", "コメント"]) := by
  refine ⟨rfl, ?_⟩
  decide

/-- C7 (amended): `read_condition_xlsx` fails exactly when the prior
spreadsheet has no sheet named `data`; when that sheet exists it returns
the sheet's records as they are, with no column validation. -/
theorem read_condition_xlsx_spec (f : List Sheet) :
    ((read_condition_xlsx f).isOk = false ↔
      f.find? (fun sh => sh.name == "data") = none) ∧
    ∀ sh, f.find? (fun sh2 => sh2.name == "data") = some sh →
      read_condition_xlsx f = Except.ok sh := by
  constructor
  · rw [read_condition_xlsx]
    rcases hf : f.find? (fun sh => sh.name == "data") with _ | sh
    · rw [hf]; simp [Except.isOk, Except.toBool]
    · rw [hf]; simp [Except.isOk, Except.toBool, hf]
  · intro sh hf
    rw [read_condition_xlsx, hf]

/-- Witness for C7's amended statement: the reader errors on a file
without a `data` sheet and returns the `data` sheet of a file that has
one (with arbitrary columns). -/
theorem read_condition_xlsx_spec_witness :
    ((read_condition_xlsx []).isOk = false ↔
      ([] : List Sheet).find? (fun sh => sh.name == "data") = none) ∧
    read_condition_xlsx [{ name := "data", header := ["a", "b"], rows := [] }] =
      Except.ok { name := "data", header := ["a", "b"], rows := [] } :=
  ⟨(read_condition_xlsx_spec []).1,
    (read_condition_xlsx_spec _).2 _ rfl⟩

/-- C8: rendering a series to the raw `data` sheet and reading it back
through the prior-report reader reproduces the same series — every
record (in particular every record with a present condition code) keeps
its date, condition and comment unchanged. -/
theorem raw_sheet_roundtrip (s : List ConditionRecord) :
    read_condition_xlsx (write_raw_data s) =
      Except.ok { name := "data", header := ["日付", "体調", "コメント"],
                  rows := s } := rfl

/-- Source constant `insert_matrix = (6, 2)`: the chart tiling has 6 rows of 2 charts. -/
def insertMatrix : Nat × Nat := (6, 2)

/-- Source constant `insert_cell = (8, 5)`: the first chart is inserted at cell (8, 5)
(F8, zero-based row/column). -/
def insertCell : Nat × Nat := (8, 5)

/-- Source constant `per_chart_offset = (8, 11)`: the cell spacing between charts. -/
def perChartOffset : Nat × Nat := (8, 11)

/-- The cell at which the `i`-th chart is inserted
(`insert_row` / `insert_col` of `_insert_monthly_trend_chart`). -/
def chartInsertPos (i : Nat) : Nat × Nat :=
  (insertCell.1 + i / insertMatrix.2 * perChartOffset.1,
    insertCell.2 + i % insertMatrix.2 * perChartOffset.2)

/-- Embedding of the chart placement of `_insert_monthly_trend_chart`:
enumerate the monthly groups of the yearly grid in order and pair each
month with the cell at which its combined trend chart is inserted (the
chart contents and formatting are the renderer capability; the claim
under check concerns the tiling). -/
def insert_monthly_trend_chart (grid : List GridRow) : List (Nat × (Nat × Nat)) :=
  (monthGroups grid).enum.map (fun p => (p.2.1, chartInsertPos p.1))

/-- C9: the monthly trend charts of a yearly grid tile a fixed 6-by-2
grid in month order: exactly one chart per month, the `i`-th chart (from
0) inserted at cell row `8 + (i / 2) * 8` and column `5 + (i % 2) * 11`. -/
theorem insert_monthly_trend_chart_spec (year : Nat)
    (s : List ConditionRecord) (g : List GridRow)
    (hg : prepare_yearly_frame s year = some g) :
    (insert_monthly_trend_chart g).length = 12 ∧
    ∀ i, i < 12 →
      (insert_monthly_trend_chart g)[i]? =
        some (i + 1, (8 + i / 2 * 8, 5 + i % 2 * 11)) := by
  rw [prepare_yearly_frame] at hg
  split at hg
  case isFalse => cases hg
  case isTrue hs =>
    cases hg
    have hmg := monthGroups_complete (grid_month_inhabited year s)
    constructor
    · rw [insert_monthly_trend_chart, List.length_map, List.enum_length, hmg,
        List.length_map, List.length_range]
    · intro i hi
      rw [insert_monthly_trend_chart, List.getElem?_map, List.getElem?_enum,
        hmg, List.getElem?_map, List.getElem?_range hi]
      simp [chartInsertPos, insertCell, insertMatrix, perChartOffset]

/-- Witness for C9 at year 2024 and the empty series. -/
theorem insert_monthly_trend_chart_spec_witness :
    (insert_monthly_trend_chart ((yearDates 2024).map (yearlyRow []))).length = 12 ∧
    ∀ i, i < 12 →
      (insert_monthly_trend_chart ((yearDates 2024).map (yearlyRow [])))[i]? =
        some (i + 1, (8 + i / 2 * 8, 5 + i % 2 * 11)) :=
  insert_monthly_trend_chart_spec 2024 [] _ (by simp [prepare_yearly_frame])

end CondAnalysis
